import Mathlib

/-!
Shallow embedding of `msg-store` (src/service.rs): a deduplicating
registry mapping (tenant, key) pairs to numeric identities.

Modelling conventions:
* `std::collections::HashMap` is modelled as an association list
  (`List (α × β)`) whose `insertA` replaces an existing binding, like
  `HashMap::insert`; lookup is `lookupA`.
* `AtomicU64` is modelled as `Nat`.  `fetch_add(1, SeqCst)` returns the
  old value and stores old + 1.  Wrap-around at 2^64 is not modelled:
  it needs 2^64 allocations in one process run, which the specification
  explicitly places out of scope ("integer overflow ... out of scope at
  expected load").
* A Rust panic (`.unwrap()` on `None`) is modelled as `Option.none`:
  `insert` returns `Option ((Bool × Nat) × StorageService)` where `none`
  means the call panicked.
* Sequential execution is explicit state passing; the concurrent
  interleavings of `insert` (relevant to the tenant-creation race) are
  modelled by a per-thread program counter and a scheduler, further down.
-/

namespace MsgStore

/-- Lookup in an association list (model of `HashMap::get`). -/
def lookupA {α β : Type} [DecidableEq α] (k : α) : List (α × β) → Option β
  | [] => none
  | (k', v) :: rest => if k' = k then some v else lookupA k rest

/-- Insert into an association list, replacing any existing binding for the
same key (model of `HashMap::insert`). -/
def insertA {α β : Type} [DecidableEq α] (k : α) (v : β) : List (α × β) → List (α × β)
  | [] => [(k, v)]
  | (k', v') :: rest => if k' = k then (k, v) :: rest else (k', v') :: insertA k v rest

/-- Model of `StorageServiceError` (src/service.rs:15-18). -/
inductive StorageServiceError where
  | KeyPatternNotValid : String → StorageServiceError
deriving DecidableEq

/-- One uppercase ASCII letter, the `[A-Z]` character class of the key regex. -/
def isUpperAZ (c : Char) : Bool := 'A' ≤ c && c ≤ 'Z'

/-- One lowercase ASCII letter or ASCII digit, the `[a-z0-9]` class of the key regex. -/
def isLowerOrDigit (c : Char) : Bool := ('a' ≤ c && c ≤ 'z') || ('0' ≤ c && c ≤ '9')

/-- Model of the anchored regex `^[A-Z]{1}-[a-z0-9]{5}-[A-Z]{1}$`
(src/service.rs:24-25, `KEY_PATTERN`): exactly nine characters of the
given classes. -/
def keyPatternMatch (s : String) : Bool :=
  match s.data with
  | [c0, c1, c2, c3, c4, c5, c6, c7, c8] =>
    isUpperAZ c0 && c1 = '-' && isLowerOrDigit c2 && isLowerOrDigit c3 &&
      isLowerOrDigit c4 && isLowerOrDigit c5 && isLowerOrDigit c6 &&
      c7 = '-' && isUpperAZ c8
  | _ => false

/-- Model of `Key` (src/service.rs:20-21), a newtype over `String`. -/
structure Key where
  raw : String
deriving DecidableEq

/-- Model of `Key::new` (src/service.rs:28-36): validate the raw string
against `KEY_PATTERN` and wrap it, or fail with `KeyPatternNotValid`
carrying the message built by `format!("Key {} is not valid", key)`. -/
def Key.new (key : String) : Except StorageServiceError Key :=
  match keyPatternMatch key with
  | true => Except.ok ⟨key⟩
  | false => Except.error (StorageServiceError.KeyPatternNotValid
      ("Key " ++ key ++ " is not valid"))

/-- Model of `TenantId` (src/service.rs:39-40), a newtype over `String`. -/
structure TenantId where
  raw : String
deriving DecidableEq

/-- Model of `TenantId::new` (src/service.rs:43-46): no validation. -/
def TenantId.new (id : String) : TenantId := ⟨id⟩

/-- Model of `TenantMap = HashMap<TenantId, RwLock<HashMap<Key, u64>>>`
(src/service.rs:49).  Locks are erased in the sequential model. -/
def TenantMap := List (TenantId × List (Key × Nat))

/-- Model of `StorageService` (src/service.rs:51-54): the atomic counter
and the two-level map. -/
structure StorageService where
  last_id : Nat
  entries : List (TenantId × List (Key × Nat))
deriving DecidableEq

/-- Model of `StorageService::default` (src/service.rs:137-144): counter
starts at 1, entries empty. -/
def StorageService.default : StorageService :=
  { last_id := 1, entries := [] }

/-- Model of `get_next_id` (src/service.rs:64-66):
`fetch_add(1, SeqCst)` returns the old counter value and increments it. -/
def get_next_id (s : StorageService) : Nat × StorageService :=
  (s.last_id, { s with last_id := s.last_id + 1 })

/-- Model of `insert` (src/service.rs:68-110) in sequential execution.
The two `.unwrap()` calls on the tenant lookup are modelled by `none`
(a panic); the state between the `contains_key` check and the later
lookups does not change sequentially, but the model re-reads it exactly
where the code does.  Case 1: the tenant map does not exist, create it
and add the key.  Case 2: the key does not exist, add it.  Case 3: the
key exists, return its value. -/
def insert (s : StorageService) (tenant_id : TenantId) (key : Key) :
    Option ((Bool × Nat) × StorageService) :=
  if (lookupA tenant_id s.entries).isSome = false then
    let p := get_next_id s
    let tenant_map := insertA key p.1 ([] : List (Key × Nat))
    some ((true, p.1), { p.2 with entries := insertA tenant_id tenant_map p.2.entries })
  else
    match lookupA tenant_id s.entries with
    | none => none
    | some tm =>
      match lookupA key tm with
      | none =>
        let p := get_next_id s
        match lookupA tenant_id p.2.entries with
        | none => none
        | some tm2 =>
          some ((true, p.1),
            { p.2 with entries := insertA tenant_id (insertA key p.1 tm2) p.2.entries })
      | some value => some ((false, value), s)

/-- Lookup of the identity currently bound to a (tenant, key) pair. -/
def pairLookup (s : StorageService) (t : TenantId) (k : Key) : Option Nat :=
  match lookupA t s.entries with
  | none => none
  | some tm => lookupA k tm

/-- Run a list of sequential `insert` calls, collecting the results;
`none` if any call panics. -/
def runInserts (s : StorageService) : List (TenantId × Key) →
    Option (List (Bool × Nat) × StorageService)
  | [] => some ([], s)
  | (t, k) :: rest =>
    match insert s t k with
    | none => none
    | some (r, s') =>
      match runInserts s' rest with
      | none => none
      | some (rs, s'') => some (r :: rs, s'')

/-- All identities bound in the registry are strictly below the counter. -/
def IdsBounded (s : StorageService) : Prop :=
  ∀ t k i, pairLookup s t k = some i → i < s.last_id

/-- Distinct (tenant, key) pairs are bound to distinct identities. -/
def IdsInjective (s : StorageService) : Prop :=
  ∀ t1 k1 t2 k2 i1 i2, (t1, k1) ≠ (t2, k2) →
    pairLookup s t1 k1 = some i1 → pairLookup s t2 k2 = some i2 → i1 ≠ i2

/-- Specification-side reading of the key format: one uppercase ASCII
letter, a dash, exactly five lowercase-alphanumeric characters, a dash,
one uppercase ASCII letter. -/
def SpecKeyPattern (s : String) : Prop :=
  ∃ (a b : Char) (m : List Char),
    s.data = a :: '-' :: (m ++ ['-', b]) ∧
    m.length = 5 ∧
    ('A' ≤ a ∧ a ≤ 'Z') ∧ ('A' ≤ b ∧ b ≤ 'Z') ∧
    (∀ c ∈ m, ('a' ≤ c ∧ c ≤ 'z') ∨ ('0' ≤ c ∧ c ≤ '9'))

/-- Model of the request message: a tenant string and a key string. -/
structure MessageInput where
  tenant : String
  key : String
deriving DecidableEq

/-- Model of the response message. -/
structure MessageOutput where
  new : Bool
  id : Nat
  timestamp : Int
deriving DecidableEq

/-- Model of the gRPC error status produced by `Status::invalid_argument`. -/
inductive Status where
  | invalid_argument : String → Status
deriving DecidableEq

/-- Debug formatting of `StorageServiceError`, as `format!("{:?}", e)`
renders it (string escaping inside the payload is not modelled; the keys
involved contain no quotes or backslashes). -/
def debugFormat : StorageServiceError → String
  | StorageServiceError.KeyPatternNotValid m =>
      "KeyPatternNotValid(\"" ++ m ++ "\")"

/-- Model of `process` (src/service.rs:115-134): validate the key, then
insert; on validation failure return an invalid-argument status without
touching the registry.  The wall-clock timestamp is passed in as `now`;
a panic inside `insert` propagates as `none`. -/
def process (s : StorageService) (now : Int) (input : MessageInput) :
    Option (Except Status MessageOutput × StorageService) :=
  match Key.new input.key with
  | Except.ok key =>
    match insert s (TenantId.new input.tenant) key with
    | none => none
    | some (r, s') =>
      some (Except.ok { new := r.1, id := r.2, timestamp := now }, s')
  | Except.error e =>
    some (Except.error (Status.invalid_argument (debugFormat e)), s)

/-- Program counter of one in-flight `insert` call, one constructor per
atomic step of src/service.rs:68-110: `checkTenant` is the `contains_key`
read (line 70); `allocNew` and `allocKey` are the `fetch_add` calls
(lines 72 and 95); `writeNew` is the write-lock insert of a freshly built
tenant map (lines 74-78); `readPair` reads the key's current binding
(lines 81-90); `writeKey` is the write-lock insert of the key (lines
96-103).  A multi-lock statement is one atomic step because the outer
read or write guard is held for the whole statement; `fetch_add` is its
own step taken with no lock held.  `done` takes no further steps;
`stuck` models a panic. -/
inductive PC where
  | checkTenant | allocNew | writeNew | readPair | allocKey | writeKey | done | stuck
deriving DecidableEq

/-- One in-flight `insert` call: its arguments, program counter, the
locally saved freshly minted identity, and the call's result. -/
structure ThreadState where
  tenant : TenantId
  key : Key
  pc : PC
  saved : Nat
  result : Option (Bool × Nat)
deriving DecidableEq

/-- One atomic step of thread `th` against the shared service state. -/
def stepThread (g : StorageService) (th : ThreadState) : StorageService × ThreadState :=
  match th.pc with
  | PC.checkTenant =>
    if (lookupA th.tenant g.entries).isSome = false then
      (g, { th with pc := PC.allocNew })
    else
      (g, { th with pc := PC.readPair })
  | PC.allocNew =>
    let p := get_next_id g
    (p.2, { th with pc := PC.writeNew, saved := p.1 })
  | PC.writeNew =>
    ({ g with entries := insertA th.tenant (insertA th.key th.saved
        ([] : List (Key × Nat))) g.entries },
     { th with pc := PC.done, result := some (true, th.saved) })
  | PC.readPair =>
    match lookupA th.tenant g.entries with
    | none => (g, { th with pc := PC.stuck })
    | some tm =>
      match lookupA th.key tm with
      | none => (g, { th with pc := PC.allocKey })
      | some v => (g, { th with pc := PC.done, result := some (false, v) })
  | PC.allocKey =>
    let p := get_next_id g
    (p.2, { th with pc := PC.writeKey, saved := p.1 })
  | PC.writeKey =>
    match lookupA th.tenant g.entries with
    | none => (g, { th with pc := PC.stuck })
    | some tm =>
      ({ g with entries := insertA th.tenant (insertA th.key th.saved tm) g.entries },
       { th with pc := PC.done, result := some (true, th.saved) })
  | PC.done => (g, th)
  | PC.stuck => (g, th)

/-- A configuration: the shared service state and the in-flight calls. -/
structure Conf where
  svc : StorageService
  threads : List ThreadState
deriving DecidableEq

/-- Let thread `i` take its next atomic step. -/
def schedStep (c : Conf) (i : Nat) : Conf :=
  match c.threads[i]? with
  | none => c
  | some th =>
    let p := stepThread c.svc th
    { svc := p.1, threads := c.threads.set i p.2 }

/-- Run a schedule: a list of thread indices, each taking one step. -/
def runSched (c : Conf) : List Nat → Conf
  | [] => c
  | i :: rest => runSched (schedStep c i) rest

/-- The result observed by thread `i`. -/
def threadResult (c : Conf) (i : Nat) : Option (Bool × Nat) :=
  match c.threads[i]? with
  | none => none
  | some th => th.result

/-- A brand-new tenant first sighted concurrently by two callers. -/
def raceTenant : TenantId := ⟨"3bd1c697"⟩

/-- The first racing caller's key. -/
def raceKey1 : Key := ⟨"K-aaaaa-A"⟩

/-- The second racing caller's key, distinct from the first. -/
def raceKey2 : Key := ⟨"K-bbbbb-B"⟩

/-- Two concurrent `insert` calls for the same brand-new tenant with
different keys, on a fresh registry. -/
def raceInit : Conf :=
  { svc := StorageService.default,
    threads := [
      { tenant := raceTenant, key := raceKey1, pc := PC.checkTenant,
        saved := 0, result := none },
      { tenant := raceTenant, key := raceKey2, pc := PC.checkTenant,
        saved := 0, result := none }] }

/-- The interleaving in which both `contains_key` checks run before either
caller's tenant-map write. -/
def raceSched : List Nat := [0, 1, 0, 0, 1, 1]

/-! Association-list laws. -/

theorem lookupA_insertA_self {α β : Type} [DecidableEq α] (k : α) (v : β)
    (m : List (α × β)) : lookupA k (insertA k v m) = some v := by
  induction m with
  | nil => simp [lookupA, insertA]
  | cons p rest ih =>
    obtain ⟨k', v'⟩ := p
    by_cases h : k' = k
    · simp [lookupA, insertA, h]
    · simp [lookupA, insertA, h, ih]

theorem lookupA_insertA_ne {α β : Type} [DecidableEq α] {k k' : α} (v : β)
    (m : List (α × β)) (h : k' ≠ k) : lookupA k' (insertA k v m) = lookupA k' m := by
  induction m with
  | nil => simp [lookupA, insertA, Ne.symm h]
  | cons p rest ih =>
    obtain ⟨k0, v0⟩ := p
    by_cases h0 : k0 = k
    · subst h0
      simp [lookupA, insertA, Ne.symm h]
    · simp only [insertA, if_neg h0]
      by_cases h1 : k0 = k'
      · simp [lookupA, h1]
      · simp [lookupA, h1, ih]

/-! Case analysis of `insert` in sequential execution. -/

theorem insert_tenant_new {s : StorageService} {t : TenantId} (k : Key)
    (ht : lookupA t s.entries = none) :
    insert s t k = some ((true, s.last_id),
      { last_id := s.last_id + 1, entries := insertA t [(k, s.last_id)] s.entries }) := by
  simp [insert, ht, get_next_id, insertA]

theorem insert_key_new {s : StorageService} {t : TenantId} {k : Key}
    {tm : List (Key × Nat)} (ht : lookupA t s.entries = some tm)
    (hk : lookupA k tm = none) :
    insert s t k = some ((true, s.last_id),
      { last_id := s.last_id + 1,
        entries := insertA t (insertA k s.last_id tm) s.entries }) := by
  simp [insert, ht, hk, get_next_id]

theorem insert_hit {s : StorageService} {t : TenantId} {k : Key}
    {tm : List (Key × Nat)} {v : Nat} (ht : lookupA t s.entries = some tm)
    (hk : lookupA k tm = some v) :
    insert s t k = some ((false, v), s) := by
  simp [insert, ht, hk]

/-- How one `insert` call changes the binding of every pair: the inserted
pair is bound to the returned identity, every other pair keeps its binding. -/
theorem insert_pairLookup {s : StorageService} {t : TenantId} {k : Key}
    {r : Bool × Nat} {s' : StorageService} (h : insert s t k = some (r, s'))
    (t' : TenantId) (k' : Key) :
    pairLookup s' t' k' =
      if t' = t ∧ k' = k then some r.2 else pairLookup s t' k' := by
  rcases ht : lookupA t s.entries with _ | tm
  · rw [insert_tenant_new k ht] at h
    obtain ⟨h1, h2⟩ := Prod.mk.inj (Option.some.inj h)
    subst h1; subst h2
    by_cases htt : t' = t
    · subst htt
      by_cases hkk : k' = k
      · subst hkk
        simp [pairLookup, lookupA_insertA_self, lookupA]
      · simp [pairLookup, hkk, lookupA_insertA_self, lookupA, ht, Ne.symm hkk]
    · simp [pairLookup, htt, lookupA_insertA_ne _ _ htt]
  · rcases hk : lookupA k tm with _ | v
    · rw [insert_key_new ht hk] at h
      obtain ⟨h1, h2⟩ := Prod.mk.inj (Option.some.inj h)
      subst h1; subst h2
      by_cases htt : t' = t
      · subst htt
        by_cases hkk : k' = k
        · subst hkk
          simp [pairLookup, lookupA_insertA_self]
        · simp [pairLookup, hkk, lookupA_insertA_self, ht,
            lookupA_insertA_ne _ _ hkk]
      · simp [pairLookup, htt, lookupA_insertA_ne _ _ htt]
    · rw [insert_hit ht hk] at h
      obtain ⟨h1, h2⟩ := Prod.mk.inj (Option.some.inj h)
      subst h1; subst h2
      by_cases htt : t' = t
      · subst htt
        by_cases hkk : k' = k
        · subst hkk
          simp [pairLookup, ht, hk]
        · simp [hkk]
      · simp [htt]

/-- An `insert` of an absent pair returns `(true, last_id)` and increments
the counter. -/
theorem insert_new_spec {s : StorageService} {t : TenantId} {k : Key}
    {r : Bool × Nat} {s' : StorageService} (h : insert s t k = some (r, s'))
    (habs : pairLookup s t k = none) :
    r = (true, s.last_id) ∧ s'.last_id = s.last_id + 1 := by
  rcases ht : lookupA t s.entries with _ | tm
  · rw [insert_tenant_new k ht] at h
    obtain ⟨h1, h2⟩ := Prod.mk.inj (Option.some.inj h)
    subst h1; subst h2
    exact ⟨rfl, rfl⟩
  · rcases hk : lookupA k tm with _ | v
    · rw [insert_key_new ht hk] at h
      obtain ⟨h1, h2⟩ := Prod.mk.inj (Option.some.inj h)
      subst h1; subst h2
      exact ⟨rfl, rfl⟩
    · simp [pairLookup, ht, hk] at habs

/-- An `insert` of an absent pair succeeds with `(true, last_id)`. -/
theorem insert_new_some {s : StorageService} {t : TenantId} {k : Key}
    (habs : pairLookup s t k = none) :
    ∃ s', insert s t k = some ((true, s.last_id), s') := by
  rcases ht : lookupA t s.entries with _ | tm
  · exact ⟨_, insert_tenant_new k ht⟩
  · rcases hk : lookupA k tm with _ | v
    · exact ⟨_, insert_key_new ht hk⟩
    · simp [pairLookup, ht, hk] at habs

/-- Sequentially, `insert` never returns the panic marker. -/
theorem insert_isSome (s : StorageService) (t : TenantId) (k : Key) :
    (insert s t k).isSome = true := by
  rcases ht : lookupA t s.entries with _ | tm
  · rw [insert_tenant_new k ht]; rfl
  · rcases hk : lookupA k tm with _ | v
    · rw [insert_key_new ht hk]; rfl
    · rw [insert_hit ht hk]; rfl

/-- An `insert` of a pair that is already bound returns `(false, id)` and
leaves the state untouched. -/
theorem insert_hit_pair {s : StorageService} {t : TenantId} {k : Key} {v : Nat}
    (hv : pairLookup s t k = some v) :
    insert s t k = some ((false, v), s) := by
  rcases ht : lookupA t s.entries with _ | tm
  · simp [pairLookup, ht] at hv
  · rcases hk : lookupA k tm with _ | w
    · simp [pairLookup, ht, hk] at hv
    · have hw : w = v := by simpa [pairLookup, ht, hk] using hv
      subst hw
      exact insert_hit ht hk

/-! Preservation of the registry invariants. -/

theorem insert_preserves_bounded {s : StorageService} {t : TenantId} {k : Key}
    {r : Bool × Nat} {s' : StorageService} (h : insert s t k = some (r, s'))
    (hb : IdsBounded s) : IdsBounded s' := by
  rcases habs : pairLookup s t k with _ | v
  · obtain ⟨hr, hlast⟩ := insert_new_spec h habs
    intro t' k' i hi
    rw [insert_pairLookup h t' k'] at hi
    rw [hlast]
    by_cases c : t' = t ∧ k' = k
    · rw [if_pos c] at hi
      have hieq : r.2 = i := Option.some.inj hi
      rw [← hieq, hr]
      exact Nat.lt_succ_self _
    · rw [if_neg c] at hi
      have := hb _ _ _ hi
      omega
  · have hhit := insert_hit_pair habs
    obtain ⟨hr, hs⟩ := Prod.mk.inj (Option.some.inj (h.symm.trans hhit))
    subst hs
    exact hb

theorem insert_preserves_injective {s : StorageService} {t : TenantId} {k : Key}
    {r : Bool × Nat} {s' : StorageService} (h : insert s t k = some (r, s'))
    (hb : IdsBounded s) (hinj : IdsInjective s) : IdsInjective s' := by
  rcases habs : pairLookup s t k with _ | v
  · obtain ⟨hr, hlast⟩ := insert_new_spec h habs
    intro t1 k1 t2 k2 i1 i2 hne h1 h2
    rw [insert_pairLookup h t1 k1] at h1
    rw [insert_pairLookup h t2 k2] at h2
    by_cases c1 : t1 = t ∧ k1 = k <;> by_cases c2 : t2 = t ∧ k2 = k
    · exact absurd (by rw [c1.1, c1.2, c2.1, c2.2]) hne
    · rw [if_pos c1] at h1
      rw [if_neg c2] at h2
      have hi1 : i1 = s.last_id := by
        rw [hr] at h1
        exact (Option.some.inj h1).symm
      have hi2 := hb _ _ _ h2
      omega
    · rw [if_neg c1] at h1
      rw [if_pos c2] at h2
      have hi2 : i2 = s.last_id := by
        rw [hr] at h2
        exact (Option.some.inj h2).symm
      have hi1 := hb _ _ _ h1
      omega
    · rw [if_neg c1] at h1
      rw [if_neg c2] at h2
      exact hinj _ _ _ _ _ _ hne h1 h2
  · have hhit := insert_hit_pair habs
    obtain ⟨hr, hs⟩ := Prod.mk.inj (Option.some.inj (h.symm.trans hhit))
    subst hs
    exact hinj

theorem runInserts_preserves {cs : List (TenantId × Key)} :
    ∀ {s : StorageService} {rs : List (Bool × Nat)} {s' : StorageService},
    runInserts s cs = some (rs, s') → IdsBounded s → IdsInjective s →
    IdsBounded s' ∧ IdsInjective s' := by
  induction cs with
  | nil =>
    intro s rs s' h hb hinj
    simp [runInserts] at h
    obtain ⟨_, hs⟩ := h
    subst hs
    exact ⟨hb, hinj⟩
  | cons p rest ih =>
    obtain ⟨t, k⟩ := p
    intro s rs s' h hb hinj
    rcases hins : insert s t k with _ | rp
    · simp [runInserts, hins] at h
    · obtain ⟨r, s1⟩ := rp
      simp only [runInserts, hins] at h
      rcases hrun : runInserts s1 rest with _ | qp
      · rw [hrun] at h; simp at h
      · obtain ⟨rs1, s2⟩ := qp
        rw [hrun] at h
        simp only [Option.some.injEq, Prod.mk.injEq] at h
        obtain ⟨_, hs2⟩ := h
        subst hs2
        exact ih hrun (insert_preserves_bounded hins hb)
          (insert_preserves_injective hins hb hinj)

/-- The fresh registry satisfies both invariants vacuously. -/
theorem default_invariants :
    IdsBounded StorageService.default ∧ IdsInjective StorageService.default := by
  constructor
  · intro t k i hi
    simp [pairLookup, StorageService.default, lookupA] at hi
  · intro t1 k1 t2 k2 i1 i2 hne h1 h2
    simp [pairLookup, StorageService.default, lookupA] at h1

/-- Running pairwise-distinct, all-absent pairs returns `(true, last_id + i)`
for the `i`-th call. -/
theorem runInserts_fresh_ids {cs : List (TenantId × Key)} :
    ∀ s : StorageService, (∀ p ∈ cs, pairLookup s p.1 p.2 = none) → cs.Nodup →
    ∃ s', runInserts s cs =
      some ((List.range cs.length).map (fun i => (true, s.last_id + i)), s') := by
  induction cs with
  | nil =>
    intro s _ _
    exact ⟨s, by simp [runInserts]⟩
  | cons p rest ih =>
    obtain ⟨t, k⟩ := p
    intro s habs hnd
    have habs0 : pairLookup s t k = none := habs (t, k) (by simp)
    obtain ⟨s1, hins⟩ := insert_new_some habs0
    have hlast : s1.last_id = s.last_id + 1 := (insert_new_spec hins habs0).2
    have hnotin : (t, k) ∉ rest := (List.nodup_cons.mp hnd).1
    have habs1 : ∀ q ∈ rest, pairLookup s1 q.1 q.2 = none := by
      intro q hq
      rw [insert_pairLookup hins q.1 q.2]
      have hqc : ¬(q.1 = t ∧ q.2 = k) := by
        intro hc
        apply hnotin
        have hq' : q = (t, k) := by
          obtain ⟨q1, q2⟩ := q
          simp only at hc
          rw [hc.1, hc.2]
        rw [← hq']
        exact hq
      rw [if_neg hqc]
      exact habs q (by simp [hq])
    obtain ⟨s2, hrun⟩ := ih s1 habs1 (List.nodup_cons.mp hnd).2
    refine ⟨s2, ?_⟩
    simp only [runInserts, hins, hrun, Option.some.injEq, Prod.mk.injEq]
    refine ⟨?_, trivial⟩
    rw [List.length_cons, List.range_succ_eq_map, List.map_cons, List.map_map]
    congr 1
    apply List.map_congr_left
    intro i _
    rw [hlast]
    simp only [Function.comp_apply, Prod.mk.injEq, true_and]
    omega

/-! Key-pattern characterization: the compiled regex agrees with the
specification's description of the pattern. -/

theorem length_five {α : Type} {m : List α} (h : m.length = 5) :
    ∃ a b c d e, m = [a, b, c, d, e] := by
  rcases m with _ | ⟨a, m⟩
  · simp at h
  rcases m with _ | ⟨b, m⟩
  · simp at h
  rcases m with _ | ⟨c, m⟩
  · simp at h
  rcases m with _ | ⟨d, m⟩
  · simp at h
  rcases m with _ | ⟨e, m⟩
  · simp at h
  rcases m with _ | ⟨f, m⟩
  · exact ⟨a, b, c, d, e, rfl⟩
  · simp at h

theorem keyPatternMatch_iff (s : String) :
    keyPatternMatch s = true ↔ SpecKeyPattern s := by
  constructor
  · intro h
    rcases hd : s.data with _ | ⟨c0, d⟩
    · simp [keyPatternMatch, hd] at h
    rcases d with _ | ⟨c1, d⟩
    · simp [keyPatternMatch, hd] at h
    rcases d with _ | ⟨c2, d⟩
    · simp [keyPatternMatch, hd] at h
    rcases d with _ | ⟨c3, d⟩
    · simp [keyPatternMatch, hd] at h
    rcases d with _ | ⟨c4, d⟩
    · simp [keyPatternMatch, hd] at h
    rcases d with _ | ⟨c5, d⟩
    · simp [keyPatternMatch, hd] at h
    rcases d with _ | ⟨c6, d⟩
    · simp [keyPatternMatch, hd] at h
    rcases d with _ | ⟨c7, d⟩
    · simp [keyPatternMatch, hd] at h
    rcases d with _ | ⟨c8, d⟩
    · simp [keyPatternMatch, hd] at h
    rcases d with _ | ⟨c9, d⟩
    · simp only [keyPatternMatch, hd, Bool.and_eq_true, decide_eq_true_eq,
        isUpperAZ, isLowerOrDigit, Bool.or_eq_true] at h
      obtain ⟨⟨⟨⟨⟨⟨⟨⟨h0, h1⟩, h2⟩, h3⟩, h4⟩, h5⟩, h6⟩, h7⟩, h8⟩ := h
      refine ⟨c0, c8, [c2, c3, c4, c5, c6], ?_, rfl, h0, h8, ?_⟩
      · rw [hd, h1, h7]
        rfl
      · intro c hc
        simp only [List.mem_cons, List.not_mem_nil, or_false] at hc
        rcases hc with rfl | rfl | rfl | rfl | rfl
        · exact h2
        · exact h3
        · exact h4
        · exact h5
        · exact h6
    · simp [keyPatternMatch, hd] at h
  · rintro ⟨a, b, m, hdata, hlen, ha, hb, hm⟩
    obtain ⟨d2, d3, d4, d5, d6, rfl⟩ := length_five hlen
    have hd : s.data = [a, '-', d2, d3, d4, d5, d6, '-', b] := by
      simpa using hdata
    have h2 := hm d2 (by simp)
    have h3 := hm d3 (by simp)
    have h4 := hm d4 (by simp)
    have h5 := hm d5 (by simp)
    have h6 := hm d6 (by simp)
    simp [keyPatternMatch, hd, isUpperAZ, isLowerOrDigit, ha.1, ha.2, hb.1,
      hb.2, h2, h3, h4, h5, h6]

/-! The claims. -/

/-- C1: for every valid (tenant, key) pair not yet present in the registry,
two sequential `insert` calls for it return `(true, id)` first and
`(false, id)` second, with the same identity both times. -/
theorem insert_twice_idempotent {s : StorageService} {t : TenantId} {k : Key}
    (_hvalid : keyPatternMatch k.raw = true)
    (habs : pairLookup s t k = none) :
    ∃ id s1 s2, insert s t k = some ((true, id), s1) ∧
      insert s1 t k = some ((false, id), s2) := by
  obtain ⟨s1, hins⟩ := insert_new_some habs
  have hself : pairLookup s1 t k = some s.last_id := by
    rw [insert_pairLookup hins t k]
    simp
  exact ⟨s.last_id, s1, s1, hins, insert_hit_pair hself⟩

theorem insert_twice_idempotent_witness :
    ∃ id s1 s2,
      insert StorageService.default ⟨"3bd1c697"⟩ ⟨"K-h53dk-A"⟩ =
        some ((true, id), s1) ∧
      insert s1 ⟨"3bd1c697"⟩ ⟨"K-h53dk-A"⟩ = some ((false, id), s2) :=
  insert_twice_idempotent (by decide) (by decide)

/-- C2: on a fresh registry, the literal four-call scenario of the spec and
of `test_storage_service_default_sample_data` returns exactly `(true, 1)`,
`(true, 2)`, `(true, 3)`, `(false, 2)` in that order. -/
theorem literal_scenario :
    (runInserts StorageService.default
      [(TenantId.new "3bd1c697", ⟨"K-h53dk-A"⟩),
       (TenantId.new "75682017", ⟨"K-h53dk-A"⟩),
       (TenantId.new "3bd1c697", ⟨"K-867vc-C"⟩),
       (TenantId.new "75682017", ⟨"K-h53dk-A"⟩)]).map Prod.fst =
    some [(true, 1), (true, 2), (true, 3), (false, 2)] := by decide

/-- C3: `Key.new` succeeds, wrapping exactly the input string, if and only
if the input matches the pattern one uppercase ASCII letter, a dash, five
lowercase-alphanumeric characters, a dash, one uppercase ASCII letter; any
other input fails with `KeyPatternNotValid` carrying the offending raw
value; in particular "K-h53dk-A" succeeds and "not-a-key" fails. -/
theorem key_validation_spec :
    (∀ (s : String) (k : Key), Key.new s = Except.ok k → k = ⟨s⟩ ∧ SpecKeyPattern s) ∧
    (∀ s : String, SpecKeyPattern s → Key.new s = Except.ok ⟨s⟩) ∧
    (∀ s : String, ¬SpecKeyPattern s → Key.new s = Except.error
      (StorageServiceError.KeyPatternNotValid ("Key " ++ s ++ " is not valid"))) ∧
    Key.new "K-h53dk-A" = Except.ok ⟨"K-h53dk-A"⟩ ∧
    Key.new "not-a-key" = Except.error (StorageServiceError.KeyPatternNotValid
      "Key not-a-key is not valid") := by
  refine ⟨?_, ?_, ?_, ?_, ?_⟩
  · intro s k h
    cases hp : keyPatternMatch s
    · simp [Key.new, hp] at h
    · refine ⟨?_, (keyPatternMatch_iff s).mp hp⟩
      simp only [Key.new, hp, Except.ok.injEq] at h
      exact h.symm
  · intro s hs
    simp [Key.new, (keyPatternMatch_iff s).mpr hs]
  · intro s hs
    have hp : keyPatternMatch s = false := by
      cases hb : keyPatternMatch s
      · rfl
      · exact absurd ((keyPatternMatch_iff s).mp hb) hs
    simp [Key.new, hp]
  · have hok : keyPatternMatch "K-h53dk-A" = true := by decide
    simp [Key.new, hok]
  · have hko : keyPatternMatch "not-a-key" = false := by decide
    have hmsg : ("Key " ++ "not-a-key" ++ " is not valid" : String) =
        "Key not-a-key is not valid" := by decide
    simp [Key.new, hko, hmsg]

theorem key_validation_spec_witness :
    Key.new "K-h53dk-A" = Except.ok ⟨"K-h53dk-A"⟩ :=
  key_validation_spec.2.1 "K-h53dk-A"
    ⟨'K', 'A', ['h', '5', '3', 'd', 'k'],
      by decide, by decide, by decide, by decide, by decide⟩

/-- C4: on a freshly constructed service the first `get_next_id` returns 1,
and each call returns exactly one more than the previous call's return
value. -/
theorem get_next_id_monotone :
    (get_next_id StorageService.default).1 = 1 ∧
    ∀ s : StorageService,
      (get_next_id (get_next_id s).2).1 = (get_next_id s).1 + 1 :=
  ⟨rfl, fun _ => rfl⟩

theorem get_next_id_monotone_witness :
    (get_next_id (get_next_id StorageService.default).2).1 =
      (get_next_id StorageService.default).1 + 1 :=
  get_next_id_monotone.2 StorageService.default

/-- C5: the first insert on a fresh registry mints identity 1, and after
any sequence of inserts on a fresh registry, identities bound to distinct
(tenant, key) pairs are pairwise distinct. -/
theorem identities_globally_unique :
    (∀ t k, ∃ s', insert StorageService.default t k = some ((true, 1), s')) ∧
    ∀ cs rs s', runInserts StorageService.default cs = some (rs, s') →
      ∀ t1 k1 t2 k2 i1 i2, (t1, k1) ≠ (t2, k2) →
        pairLookup s' t1 k1 = some i1 → pairLookup s' t2 k2 = some i2 →
        i1 ≠ i2 := by
  constructor
  · intro t k
    have habs : pairLookup StorageService.default t k = none := by
      simp [pairLookup, StorageService.default, lookupA]
    exact insert_new_some habs
  · intro cs rs s' h
    exact (runInserts_preserves h default_invariants.1 default_invariants.2).2

theorem identities_globally_unique_witness : (1 : Nat) ≠ 2 :=
  identities_globally_unique.2
    [(⟨"3bd1c697"⟩, ⟨"K-h53dk-A"⟩), (⟨"75682017"⟩, ⟨"K-h53dk-A"⟩)]
    [(true, 1), (true, 2)]
    ⟨3, [(⟨"3bd1c697"⟩, [(⟨"K-h53dk-A"⟩, 1)]),
         (⟨"75682017"⟩, [(⟨"K-h53dk-A"⟩, 2)])]⟩
    (by decide)
    ⟨"3bd1c697"⟩ ⟨"K-h53dk-A"⟩ ⟨"75682017"⟩ ⟨"K-h53dk-A"⟩ 1 2
    (by decide) (by decide) (by decide)

/-- C6: a request whose key fails validation makes `process` return an
invalid-argument error whose message names the offending key, and the
returned registry state (tenant map and counter) is exactly the input
state: neither `insert` nor the allocator ran. -/
theorem process_invalid_key_rejected (s : StorageService) (now : Int)
    (input : MessageInput) (hbad : keyPatternMatch input.key = false) :
    process s now input = some (Except.error (Status.invalid_argument
      ("KeyPatternNotValid(\"" ++ ("Key " ++ input.key ++ " is not valid") ++ "\")")),
      s) := by
  simp [process, Key.new, hbad, debugFormat]

theorem process_invalid_key_rejected_witness :
    process StorageService.default 0 ⟨"3bd1c697", "not-a-key"⟩ =
      some (Except.error (Status.invalid_argument
        ("KeyPatternNotValid(\"" ++ ("Key " ++ "not-a-key" ++ " is not valid") ++ "\")")),
        StorageService.default) :=
  process_invalid_key_rejected StorageService.default 0
    ⟨"3bd1c697", "not-a-key"⟩ (by decide)

/-- C7: an `insert` for a (tenant, key) pair already present performs no
allocator call and no structural mutation: it returns `(false, id)` and the
entire registry state is returned unchanged. -/
theorem insert_existing_pure_read {s : StorageService} {t : TenantId}
    {k : Key} {v : Nat} (h : pairLookup s t k = some v) :
    insert s t k = some ((false, v), s) :=
  insert_hit_pair h

theorem insert_existing_pure_read_witness :
    insert ⟨2, [(⟨"3bd1c697"⟩, [(⟨"K-h53dk-A"⟩, 1)])]⟩ ⟨"3bd1c697"⟩ ⟨"K-h53dk-A"⟩ =
      some ((false, 1), ⟨2, [(⟨"3bd1c697"⟩, [(⟨"K-h53dk-A"⟩, 1)])]⟩) :=
  insert_existing_pure_read (by decide)

/-- C8: the code violates the claim.  Under the interleaving in which both
callers' `contains_key` checks run before either tenant-map write, the
second `entries.write().insert` replaces the first caller's freshly created
sub-map: the first caller still returns `(true, 1)`, yet its key's binding
is gone from the final state and only the second key survives.  The claim
requires that no inserted key be lost under exactly this kind of racing
sub-map creation. -/
theorem tenant_race_loses_key :
    threadResult (runSched raceInit raceSched) 0 = some (true, 1) ∧
    threadResult (runSched raceInit raceSched) 1 = some (true, 2) ∧
    pairLookup (runSched raceInit raceSched).svc raceTenant raceKey1 = none ∧
    pairLookup (runSched raceInit raceSched).svc raceTenant raceKey2 = some 2 := by
  decide

/-- C9: in sequential execution the `.unwrap()` calls inside `insert` never
panic: the model returns the panic marker `none` exactly at those unwraps,
and it never does. -/
theorem insert_unwrap_never_panics (s : StorageService) (t : TenantId) (k : Key) :
    (insert s t k).isSome = true :=
  insert_isSome s t k

theorem insert_unwrap_never_panics_witness :
    (insert StorageService.default ⟨"3bd1c697"⟩ ⟨"K-h53dk-A"⟩).isSome = true :=
  insert_unwrap_never_panics StorageService.default ⟨"3bd1c697"⟩ ⟨"K-h53dk-A"⟩

/-- C10: inserting pairwise-distinct pairs on a fresh registry yields
`is_new = true` with the identities 1, 2, ..., n exactly in call order,
with no gaps. -/
theorem fresh_run_assigns_consecutive_ids {cs : List (TenantId × Key)}
    (hnd : cs.Nodup) :
    ∃ s', runInserts StorageService.default cs =
      some ((List.range cs.length).map (fun i => (true, i + 1)), s') := by
  have habs : ∀ p ∈ cs, pairLookup StorageService.default p.1 p.2 = none := by
    intro p _
    simp [pairLookup, StorageService.default, lookupA]
  obtain ⟨s', h⟩ := runInserts_fresh_ids StorageService.default habs hnd
  refine ⟨s', ?_⟩
  rw [h]
  simp only [Option.some.injEq, Prod.mk.injEq]
  refine ⟨?_, trivial⟩
  apply List.map_congr_left
  intro i _
  congr 1
  show 1 + i = i + 1
  omega

theorem fresh_run_assigns_consecutive_ids_witness :
    ∃ s', runInserts StorageService.default
      [(⟨"3bd1c697"⟩, ⟨"K-h53dk-A"⟩), (⟨"75682017"⟩, ⟨"K-h53dk-A"⟩),
       (⟨"3bd1c697"⟩, ⟨"K-867vc-C"⟩)] =
      some ((List.range
        ([(⟨"3bd1c697"⟩, ⟨"K-h53dk-A"⟩), (⟨"75682017"⟩, ⟨"K-h53dk-A"⟩),
          (⟨"3bd1c697"⟩, ⟨"K-867vc-C"⟩)] : List (TenantId × Key)).length).map
        (fun i => (true, i + 1)), s') :=
  fresh_run_assigns_consecutive_ids (by decide)

end MsgStore
